import Mathlib

/- Formal model of the caching, rate-limiting and streaming core of the
   nexmedis-golang service.  The definitions below are shallow embeddings of
   the Go functions in utils/rate_limiter.go, db/redis.go and the usage / SSE
   handlers; the theorems check the documented behaviour against them.
   Machine integers are modelled as Int (the Go values involved stay far from
   64-bit overflow), time is Unix seconds in UTC, and the Redis server is
   modelled as explicit state threaded through each operation.  Failures of
   the remote store (network errors, nil client) are environment inputs,
   passed as flags, mirroring the error values the Go redis client returns. -/

namespace Nexmedis

/-! Rate limiter (utils/rate_limiter.go) over the counter primitives of
    db/redis.go.  The relevant Redis state is a map from key strings to
    integer counters plus a map recording the absolute expiry instant set for
    a key (GetCounter returns 0 for an absent key, mirroring the redis.Nil
    branch of db.GetCounter).  -/

structure RLState where
  counters : String → Option Int
  expiries : String → Option Int

def emptyRL : RLState := ⟨fun _ => none, fun _ => none⟩

/-- Model of db.GetCounter: value of the key, or 0 when absent (redis.Nil). -/
def getCounter (st : RLState) (key : String) : Int :=
  match st.counters key with
  | none => 0
  | some v => v

/-- Model of db.IncrementCounter (Redis INCR): absent keys count as 0; the
    new value is returned together with the updated state. -/
def incrementCounter (st : RLState) (key : String) : Int × RLState :=
  let newVal := getCounter st key + 1
  (newVal,
    { st with counters := fun k => if k = key then some newVal else st.counters k })

/-- Model of RedisClient.Expire: records the absolute instant at which the
    key expires (call time plus TTL). -/
def expireAt (st : RLState) (key : String) (t : Int) : RLState :=
  { st with expiries := fun k => if k = key then some t else st.expiries k }

/-- Model of RateLimiter.getRateLimitKey.  The Go code formats
    time.Now().UTC() with layout 2006-01-02-15, one string per calendar
    hour; the formatted hour-bucket string is a parameter here (the layout is
    injective per hour, so distinct buckets give distinct strings). -/
def getRateLimitKey (clientID hourStr : String) : String :=
  "rate_limit:" ++ clientID ++ ":" ++ hourStr

/-- Which of the two fallible Redis calls inside CheckLimit fails, if any:
    db.GetCounter or db.IncrementCounter.  An environment input. -/
inductive RedisErrMode where
  | noErr
  | getErr
  | incrErr
deriving DecidableEq

/-- The triple returned by RateLimiter.CheckLimit: (allowed, remaining, err). -/
structure CheckResult where
  allowed : Bool
  remaining : Int
  err : Option Unit
deriving DecidableEq

/-- Model of RateLimiter.CheckLimit.  maxReq is rl.maxRequestsPerHour, avail
    is the result of db.IsRedisAvailable, em injects failures of the two
    fallible store calls, hourStr is the formatted current hour bucket and
    now the current Unix time (used by the Expire call: ttl one hour). -/
def CheckLimit (maxReq : Int) (avail : Bool) (em : RedisErrMode)
    (clientID hourStr : String) (now : Int) (st : RLState) :
    CheckResult × RLState :=
  let key := getRateLimitKey clientID hourStr
  if avail then
    if em = .getErr then (⟨true, 0, none⟩, st)
    else
      let count := getCounter st key
      if count ≥ maxReq then (⟨false, 0, none⟩, st)
      else if em = .incrErr then (⟨true, 0, none⟩, st)
      else
        let r := incrementCounter st key
        let st1 := if r.1 = 1 then expireAt r.2 key (now + 3600) else r.2
        let remaining := maxReq - r.1
        (⟨true, if remaining < 0 then 0 else remaining, none⟩, st1)
  else (⟨true, maxReq, none⟩, st)

/-- Model of RateLimiter.GetRemainingRequests; getFails injects a failure of
    the db.GetCounter call. -/
def GetRemainingRequests (maxReq : Int) (avail getFails : Bool)
    (clientID hourStr : String) (st : RLState) : Int × Option Unit :=
  if ¬ avail then (maxReq, none)
  else if getFails then (maxReq, none)
  else
    let remaining := maxReq - getCounter st (getRateLimitKey clientID hourStr)
    ((if remaining < 0 then 0 else remaining), none)

/-- State after n successive successful CheckLimit calls for the same client
    in the same hour bucket. -/
def checkIter (maxReq : Int) (clientID hourStr : String) (now : Int)
    (st : RLState) : Nat → RLState
  | 0 => st
  | n + 1 =>
      (CheckLimit maxReq true .noErr clientID hourStr now
        (checkIter maxReq clientID hourStr now st n)).2

/-- End of the hour bucket containing instant t.  Modelled from the spec:
    the spec asserts the counter key is set to expire at the end of the
    current hour bucket; this definition expresses that instant, for
    comparison with what the code actually sets. -/
def hourBucketEnd (t : Int) : Int := (t / 3600 + 1) * 3600

theorem getRateLimitKey_ne (clientID : String) {h1 h2 : String} (hne : h1 ≠ h2) :
    getRateLimitKey clientID h1 ≠ getRateLimitKey clientID h2 := by
  intro heq
  apply hne
  have hd := congrArg String.data heq
  simp only [getRateLimitKey, String.data_append] at hd
  exact String.ext (List.append_cancel_left hd)

theorem checkLimit_counters_other (maxReq : Int) (avail : Bool) (em : RedisErrMode)
    (clientID hourStr : String) (now : Int) (st : RLState) (k : String)
    (hk : k ≠ getRateLimitKey clientID hourStr) :
    (CheckLimit maxReq avail em clientID hourStr now st).2.counters k
      = st.counters k := by
  simp only [CheckLimit, incrementCounter, expireAt]
  repeat' split
  all_goals simp [hk]

theorem checkIter_counters_other (maxReq : Int) (clientID hourStr : String)
    (now : Int) (st : RLState) (k : String)
    (hk : k ≠ getRateLimitKey clientID hourStr) (n : Nat) :
    (checkIter maxReq clientID hourStr now st n).counters k = st.counters k := by
  induction n with
  | zero => rfl
  | succ n ih =>
      rw [checkIter, checkLimit_counters_other _ _ _ _ _ _ _ _ hk, ih]

theorem checkLimit_step_counters (maxReq : Int) (clientID hourStr : String)
    (now : Int) (st : RLState) (v : Int)
    (hv : getCounter st (getRateLimitKey clientID hourStr) = v) (hlt : v < maxReq) :
    (CheckLimit maxReq true .noErr clientID hourStr now st).2.counters
        (getRateLimitKey clientID hourStr) = some (v + 1) := by
  simp only [CheckLimit, incrementCounter, expireAt, hv]
  have hnge : ¬ (v ≥ maxReq) := by omega
  simp [hnge]
  split <;> simp

theorem checkLimit_step_result (maxReq : Int) (clientID hourStr : String)
    (now : Int) (st : RLState) (v : Int)
    (hv : getCounter st (getRateLimitKey clientID hourStr) = v) (hlt : v < maxReq) :
    (CheckLimit maxReq true .noErr clientID hourStr now st).1
      = ⟨true, maxReq - v - 1, none⟩ := by
  simp only [CheckLimit, incrementCounter, expireAt, hv]
  have hnge : ¬ (v ≥ maxReq) := by omega
  have hnneg : ¬ (maxReq - (v + 1) < 0) := by omega
  simp only [if_pos rfl, hnge, if_false, if_true]
  simp [hnge, hnneg]
  omega

theorem checkLimit_step_reject (maxReq : Int) (clientID hourStr : String)
    (now : Int) (st : RLState) (v : Int)
    (hv : getCounter st (getRateLimitKey clientID hourStr) = v) (hge : v ≥ maxReq) :
    (CheckLimit maxReq true .noErr clientID hourStr now st).1
      = ⟨false, 0, none⟩ := by
  simp only [CheckLimit, hv]
  simp [hge]

theorem checkIter_counters_key (maxReq : Int) (clientID hourStr : String)
    (now : Int) (st : RLState)
    (h0 : st.counters (getRateLimitKey clientID hourStr) = none) :
    ∀ n : Nat, (n : Int) ≤ maxReq →
      (checkIter maxReq clientID hourStr now st n).counters
          (getRateLimitKey clientID hourStr)
        = if n = 0 then none else some (n : Int) := by
  intro n
  induction n with
  | zero => intro _; simpa using h0
  | succ n ih =>
      intro hle
      have hn : (n : Int) ≤ maxReq := by push_cast at hle ⊢; omega
      have hprev := ih hn
      have hcount : getCounter (checkIter maxReq clientID hourStr now st n)
          (getRateLimitKey clientID hourStr) = (n : Int) := by
        rw [getCounter, hprev]
        by_cases h : n = 0 <;> simp [h]
      have hlt : (n : Int) < maxReq := by push_cast at hle; omega
      rw [checkIter, checkLimit_step_counters maxReq clientID hourStr now _ _ hcount hlt]
      push_cast
      simp

/-- C1: with the backing store available, for a configured hourly maximum
    M ≥ 1 and any client, starting from a fresh hour bucket the call made
    after i previous calls (i < M) is allowed with remaining = M - i - 1 (so
    remaining decreases M-1, M-2, ..., 0 over the first M calls), the call
    made after M previous calls - the (M+1)-th - is rejected, and the first
    call in a different (next) hour bucket is allowed with remaining = M - 1. -/
theorem checkLimit_hour_window (maxReq : Int) (clientID hourStr hourStr2 : String)
    (now now2 : Int) (hM : 1 ≤ maxReq) (hne : hourStr2 ≠ hourStr) :
    (∀ i : Nat, (i : Int) < maxReq →
      (CheckLimit maxReq true .noErr clientID hourStr now
          (checkIter maxReq clientID hourStr now emptyRL i)).1
        = ⟨true, maxReq - (i : Int) - 1, none⟩)
    ∧ (∀ n : Nat, (n : Int) = maxReq →
      (CheckLimit maxReq true .noErr clientID hourStr now
          (checkIter maxReq clientID hourStr now emptyRL n)).1
        = ⟨false, 0, none⟩)
    ∧ (∀ n : Nat,
      (CheckLimit maxReq true .noErr clientID hourStr2 now2
          (checkIter maxReq clientID hourStr now emptyRL n)).1
        = ⟨true, maxReq - 1, none⟩) := by
  refine ⟨?_, ?_, ?_⟩
  · intro i hi
    have hcnt := checkIter_counters_key maxReq clientID hourStr now emptyRL rfl i
      (le_of_lt hi)
    have hcount : getCounter (checkIter maxReq clientID hourStr now emptyRL i)
        (getRateLimitKey clientID hourStr) = (i : Int) := by
      rw [getCounter, hcnt]
      by_cases h : i = 0 <;> simp [h]
    exact checkLimit_step_result maxReq clientID hourStr now _ _ hcount hi
  · intro n hn
    have hcnt := checkIter_counters_key maxReq clientID hourStr now emptyRL rfl n
      (le_of_eq hn)
    have hcount : getCounter (checkIter maxReq clientID hourStr now emptyRL n)
        (getRateLimitKey clientID hourStr) = (n : Int) := by
      rw [getCounter, hcnt]
      by_cases h : n = 0 <;> simp [h]
    exact checkLimit_step_reject maxReq clientID hourStr now _ _ hcount (ge_of_eq hn)
  · intro n
    have hk : getRateLimitKey clientID hourStr2 ≠ getRateLimitKey clientID hourStr :=
      getRateLimitKey_ne clientID hne
    have hcnt := checkIter_counters_other maxReq clientID hourStr now emptyRL _ hk n
    have hcount : getCounter (checkIter maxReq clientID hourStr now emptyRL n)
        (getRateLimitKey clientID hourStr2) = 0 := by
      rw [getCounter, hcnt]
      rfl
    have := checkLimit_step_result maxReq clientID hourStr2 now2 _ _ hcount
      (by omega)
    simpa using this

/-- Witness for checkLimit_hour_window at M = 2: the second call returns
    remaining 0, the third call is rejected, and the first call in the next
    hour bucket has remaining 1. -/
theorem checkLimit_hour_window_witness :
    ((CheckLimit 2 true .noErr "c" "h0" 0 (checkIter 2 "c" "h0" 0 emptyRL 1)).1
        = ⟨true, 0, none⟩)
    ∧ ((CheckLimit 2 true .noErr "c" "h0" 0 (checkIter 2 "c" "h0" 0 emptyRL 2)).1
        = ⟨false, 0, none⟩)
    ∧ ((CheckLimit 2 true .noErr "c" "h1" 5000 (checkIter 2 "c" "h0" 0 emptyRL 2)).1
        = ⟨true, 1, none⟩) := by
  have h := checkLimit_hour_window 2 "c" "h0" "h1" 0 5000 (by decide) (by decide)
  refine ⟨?_, h.2.1 2 (by decide), ?_⟩
  · have h1 := h.1 1 (by decide)
    simpa using h1
  · have h3 := h.2.2 2
    simpa using h3

/-- C2 (amended): on a CheckLimit call that succeeds against the store, the
    counter key's expiry is set exactly when the increment result is 1 (the
    counter was absent before the call), and it is set to one hour after the
    call instant (now + 3600) - not to the end of the current hour bucket;
    when the counter already holds a value ≥ 1 the expiries are left
    unchanged, so the window is never reset by a subsequent check. -/
theorem checkLimit_expiry_first_only (maxReq : Int) (clientID hourStr : String)
    (now : Int) (st : RLState) :
    (st.counters (getRateLimitKey clientID hourStr) = none → 0 < maxReq →
      (CheckLimit maxReq true .noErr clientID hourStr now st).2.expiries
          (getRateLimitKey clientID hourStr) = some (now + 3600))
    ∧ (∀ v : Int, st.counters (getRateLimitKey clientID hourStr) = some v →
        1 ≤ v →
      (CheckLimit maxReq true .noErr clientID hourStr now st).2.expiries
        = st.expiries) := by
  constructor
  · intro h0 hpos
    have hcount : getCounter st (getRateLimitKey clientID hourStr) = 0 := by
      rw [getCounter, h0]
    have hnge : ¬ ((0 : Int) ≥ maxReq) := by omega
    simp [CheckLimit, incrementCounter, expireAt, hcount, hnge]
  · intro v hv hv1
    have hcount : getCounter st (getRateLimitKey clientID hourStr) = v := by
      rw [getCounter, hv]
    have hne1 : ¬ (v + 1 = 1) := by omega
    by_cases hge : v ≥ maxReq
    · simp [CheckLimit, hcount, hge]
    · simp [CheckLimit, incrementCounter, expireAt, hcount, hge, hne1]

/-- Counter state holding value 1 at one key, used as a concrete input. -/
def rlOneAt (key : String) : RLState :=
  ⟨fun k => if k = key then some 1 else none, fun _ => none⟩

/-- Witness for checkLimit_expiry_first_only: a first call at time 100 sets
    the expiry to 3700, and a call with the counter already at 1 leaves the
    expiries unchanged. -/
theorem checkLimit_expiry_first_only_witness :
    ((CheckLimit 10 true .noErr "c" "h" 100 emptyRL).2.expiries
        (getRateLimitKey "c" "h") = some 3700)
    ∧ ((CheckLimit 10 true .noErr "c" "h" 100
          (rlOneAt (getRateLimitKey "c" "h"))).2.expiries
        = (rlOneAt (getRateLimitKey "c" "h")).expiries) :=
  ⟨(checkLimit_expiry_first_only 10 "c" "h" 100 emptyRL).1 rfl (by decide),
   (checkLimit_expiry_first_only 10 "c" "h" 100 _).2 1 (by decide) (by decide)⟩

/-- C2 counterexample: with maximum 10 and a first request at Unix time 1800
    (half past the hour), the code sets the key expiry to 5400 = call time +
    one hour, while the end of the current hour bucket is 3600; the expiry is
    not aligned with the bucket end. -/
theorem checkLimit_expiry_not_bucket_end :
    (CheckLimit 10 true .noErr "client" "1970-01-01-00" 1800 emptyRL).2.expiries
        (getRateLimitKey "client" "1970-01-01-00") = some 5400
    ∧ hourBucketEnd 1800 = 3600
    ∧ (5400 : Int) ≠ 3600 :=
  ⟨by decide, by decide, by decide⟩

/-- C3: when the backing store is unavailable, CheckLimit allows the request
    and reports remaining = configured maximum (with nil error and unchanged
    state) regardless of the stored counters, and GetRemainingRequests also
    returns the configured maximum. -/
theorem failOpen_unavailable (maxReq : Int) (em : RedisErrMode) (getFails : Bool)
    (clientID hourStr : String) (now : Int) (st : RLState) :
    CheckLimit maxReq false em clientID hourStr now st = (⟨true, maxReq, none⟩, st)
    ∧ GetRemainingRequests maxReq false getFails clientID hourStr st
        = (maxReq, none) := by
  constructor
  · simp [CheckLimit]
  · simp [GetRemainingRequests]

/-- C10: CheckLimit always returns a nil error; when the store probe succeeds
    but the counter read fails, or the increment fails (the increment is only
    reached when the read value is below the maximum), it returns allowed =
    true with remaining = 0 - the same triple as an accepted request that
    exhausts the quota - rather than remaining = the configured maximum. -/
theorem checkLimit_total_nil_error (maxReq : Int) (clientID hourStr : String)
    (now : Int) (st : RLState) :
    (∀ avail : Bool, ∀ em : RedisErrMode,
      ((CheckLimit maxReq avail em clientID hourStr now st).1).err = none)
    ∧ (CheckLimit maxReq true .getErr clientID hourStr now st).1 = ⟨true, 0, none⟩
    ∧ (getCounter st (getRateLimitKey clientID hourStr) < maxReq →
        (CheckLimit maxReq true .incrErr clientID hourStr now st).1
          = ⟨true, 0, none⟩) := by
  refine ⟨?_, ?_, ?_⟩
  · intro avail em
    simp only [CheckLimit]
    repeat' split
    all_goals rfl
  · simp [CheckLimit]
  · intro hlt
    have hnge : ¬ (getCounter st (getRateLimitKey clientID hourStr) ≥ maxReq) := by
      omega
    simp [CheckLimit, hnge]

/-- Witness for checkLimit_total_nil_error: with maximum 5 and an empty
    store, a failing increment yields allowed with remaining 0. -/
theorem checkLimit_total_nil_error_witness :
    (CheckLimit 5 true .incrErr "c" "h" 0 emptyRL).1 = ⟨true, 0, none⟩ :=
  (checkLimit_total_nil_error 5 "c" "h" 0 emptyRL).2.2 (by decide)

example : getCounter emptyRL "k" = 0 := rfl

/-! Cache facade (db/redis.go): CacheSet / CacheGet / CacheDelete /
    CacheInvalidatePattern over the Redis keyspace, modelled as a list of
    entries (key, serialized data, absolute expiry instant).  json.Marshal /
    json.Unmarshal are external library calls; they are modelled as an
    encode result (Option String, none = marshal failure) passed in, and a
    decode function.  nilClient models RedisClient == nil; avail models
    whether the remote server answers (when it does not, the underlying
    redis command returns an error and the keyspace is untouched). -/

structure CacheEntry where
  key : String
  data : String
  expireAt : Int
deriving DecidableEq

/-- Value visible at a key: the first entry for the key that has not yet
    expired (Redis GET returns nil once the expiry instant is reached). -/
def cacheLookup (st : List CacheEntry) (key : String) (now : Int) :
    Option String :=
  (st.find? (fun e => e.key == key && decide (now < e.expireAt))).map
    CacheEntry.data

/-- Redis SET with expiration: replaces any previous entry for the key. -/
def setEntry (st : List CacheEntry) (key data : String) (exp : Int) :
    List CacheEntry :=
  ⟨key, data, exp⟩ :: st.filter (fun e => !(e.key == key))

/-- Redis DEL on a batch of keys. -/
def deleteKeys (st : List CacheEntry) (keys : List String) : List CacheEntry :=
  st.filter (fun e => !(keys.contains e.key))

/-- Model of db.CacheSet: error when the client is nil, when marshalling
    fails, or when the server is unreachable; otherwise stores the encoded
    bytes with expiry now + ttl and succeeds. -/
def CacheSet (nilClient avail : Bool) (enc : Option String) (key : String)
    (ttl now : Int) (st : List CacheEntry) : Option Unit × List CacheEntry :=
  if nilClient then (some (), st)
  else
    match enc with
    | none => (some (), st)
    | some data =>
        if avail then (none, setEntry st key data (now + ttl))
        else (some (), st)

/-- Outcome of db.CacheGet: a decoded value, the redis.Nil error for an
    absent or expired key, or any other error (nil client, server down,
    json.Unmarshal failure). -/
inductive CacheGetRes (α : Type) where
  | ok (a : α)
  | miss
  | err
deriving DecidableEq

/-- Model of db.CacheGet. -/
def CacheGet {α : Type} (nilClient avail : Bool) (dec : String → Option α)
    (key : String) (now : Int) (st : List CacheEntry) : CacheGetRes α :=
  if nilClient then .err
  else if ¬ avail then .err
  else
    match cacheLookup st key now with
    | none => .miss
    | some data =>
        match dec data with
        | none => .err
        | some v => .ok v

/-- Model of db.CacheDelete. -/
def CacheDelete (nilClient avail : Bool) (keys : List String)
    (st : List CacheEntry) : Option Unit × List CacheEntry :=
  if nilClient then (some (), st)
  else if avail then (none, deleteKeys st keys)
  else (some (), st)

/-- Glob matching as used by Redis SCAN MATCH for the patterns this
    repository issues: a star matches any (possibly empty) substring, a
    question mark any single character, every other character itself. -/
def globMatch : List Char → List Char → Bool
  | [], s => s.isEmpty
  | '?' :: _, [] => false
  | '?' :: ps, _ :: cs => globMatch ps cs
  | '*' :: ps, s => s.tails.any (fun t => globMatch ps t)
  | _ :: _, [] => false
  | p :: ps, c :: cs => (p == c) && globMatch ps cs

def globMatchStr (pattern s : String) : Bool :=
  globMatch pattern.data s.data

/-- Model of db.CacheInvalidatePattern: enumerate the keys matching the
    pattern via SCAN, then delete them in one batch when any were found;
    returns only success or an error - no count of removed keys. -/
def CacheInvalidatePattern (nilClient avail : Bool) (pattern : String)
    (st : List CacheEntry) : Option Unit × List CacheEntry :=
  if nilClient then (some (), st)
  else if ¬ avail then (some (), st)
  else
    let keys := (st.filter (fun e => globMatchStr pattern e.key)).map
      CacheEntry.key
    if keys.length > 0 then (none, deleteKeys st keys) else (none, st)

example : globMatchStr "usage:daily:*" "usage:daily:7days" = true := by decide
example : globMatchStr "usage:daily:*" "usage:top:24h" = false := by decide
example : globMatchStr "a?c" "abc" = true := by decide
example :
    (CacheInvalidatePattern false true "usage:daily:*"
      [⟨"usage:daily:1", "a", 10⟩, ⟨"usage:top:24h", "b", 10⟩]).2
      = [⟨"usage:top:24h", "b", 10⟩] := by decide

/-- C4 (amended): with the backing store down (nil client or unreachable
    server), CacheGet never serves a value - it returns an error, which its
    callers treat as a miss - and CacheSet and CacheDelete leave the
    keyspace untouched but return an error rather than reporting success. -/
theorem cache_down_degrades {α : Type} (nilClient avail : Bool)
    (hdown : nilClient = true ∨ avail = false)
    (dec : String → Option α) (enc : Option String) (key : String)
    (ttl now : Int) (keys : List String) (st : List CacheEntry) :
    CacheGet nilClient avail dec key now st = .err
    ∧ CacheSet nilClient avail enc key ttl now st = (some (), st)
    ∧ CacheDelete nilClient avail keys st = (some (), st) := by
  rcases hdown with h | h <;> subst h
  · exact ⟨by simp [CacheGet], by simp [CacheSet], by simp [CacheDelete]⟩
  · refine ⟨by cases nilClient <;> simp [CacheGet], ?_,
      by cases nilClient <;> simp [CacheDelete]⟩
    cases nilClient <;> cases enc <;> simp [CacheSet]

/-- Witness for cache_down_degrades: client initialized but server
    unreachable; all three operations error and the keyspace is unchanged. -/
theorem cache_down_degrades_witness :
    CacheGet false false (fun s => some s) "k" 0 [] = .err
    ∧ CacheSet false false (some "v") "k" 60 0 [] = (some (), [])
    ∧ CacheDelete false false ["k"] [] = (some (), []) :=
  cache_down_degrades false false (Or.inr rfl) (fun s => some s) (some "v")
    "k" 60 0 ["k"] []

/-- C4 counterexample: with the client handle nil (store down), CacheSet
    returns an error to the caller, not success. -/
theorem cacheSet_down_returns_error :
    (CacheSet true true (some "v") "k" 60 0 []).1 = some () := by decide

/-- C6: a value whose encoding round-trips, written with set under ttl and
    read back before now + ttl, decodes back equal to itself (the set itself
    reports success); after an explicit delete of the key, a read reports a
    miss. -/
theorem cache_roundtrip_and_delete {α : Type} (enc : Option String)
    (dec : String → Option α) (v : α) (s : String) (key : String)
    (ttl now tRead tRead2 : Int) (st : List CacheEntry)
    (henc : enc = some s) (hdec : dec s = some v)
    (hread : tRead < now + ttl) :
    (CacheSet false true enc key ttl now st).1 = none
    ∧ CacheGet false true dec key tRead
        (CacheSet false true enc key ttl now st).2 = .ok v
    ∧ CacheGet false true dec key tRead2
        (CacheDelete false true [key]
          (CacheSet false true enc key ttl now st).2).2 = .miss := by
  subst henc
  refine ⟨rfl, ?_, ?_⟩
  · simp [CacheGet, CacheSet, setEntry, cacheLookup, hread, hdec]
  · have hfind : ((CacheDelete false true [key]
        (CacheSet false true (some s) key ttl now st).2).2).find?
          (fun e => e.key == key && decide (tRead2 < e.expireAt)) = none := by
      rw [List.find?_eq_none]
      intro e he
      have hmem : e ∈ deleteKeys (setEntry st key s (now + ttl)) [key] := by
        simpa [CacheDelete, CacheSet] using he
      have hk : (e.key == key) = false := by
        have h2 := (List.mem_filter.mp hmem).2
        simpa [List.contains] using h2
      simp [hk]
    simp [CacheGet, cacheLookup, hfind]

/-- Decoder used as a concrete codec instance in witnesses. -/
def decSeven : String → Option Nat :=
  fun s => if s == "seven" then some 7 else none

/-- Witness for cache_roundtrip_and_delete with a concrete codec. -/
theorem cache_roundtrip_and_delete_witness :
    (CacheSet false true (some "seven") "k" 60 0 []).1 = none
    ∧ CacheGet false true decSeven "k" 30
        (CacheSet false true (some "seven") "k" 60 0 []).2 = .ok 7
    ∧ CacheGet false true decSeven "k" 30
        (CacheDelete false true ["k"]
          (CacheSet false true (some "seven") "k" 60 0 []).2).2 = .miss :=
  cache_roundtrip_and_delete (some "seven") decSeven 7 "seven" "k" 60 0 30 30 []
    rfl (by decide) (by decide)

/-- C5 (amended): with the store reachable, CacheInvalidatePattern removes
    exactly the entries whose keys match the glob pattern, leaves every
    non-matching entry untouched, and returns success - but the Go function
    returns only an error value (nil on success), never a count of the keys
    it removed. -/
theorem invalidatePattern_exact (pattern : String) (st : List CacheEntry) :
    (CacheInvalidatePattern false true pattern st).1 = none
    ∧ ∀ e : CacheEntry,
        e ∈ (CacheInvalidatePattern false true pattern st).2 ↔
          (e ∈ st ∧ globMatchStr pattern e.key = false) := by
  have hkeys : ∀ e : CacheEntry, e ∈ st →
      (((st.filter (fun x => globMatchStr pattern x.key)).map
        CacheEntry.key).contains e.key) = globMatchStr pattern e.key := by
    intro e he
    by_cases hg : globMatchStr pattern e.key = true
    · have hm : e.key ∈ (st.filter (fun x => globMatchStr pattern x.key)).map
          CacheEntry.key :=
        List.mem_map_of_mem _ (List.mem_filter.mpr ⟨he, hg⟩)
      rw [hg]
      exact List.elem_iff.mpr hm
    · have hg2 : globMatchStr pattern e.key = false := by
        simpa using hg
      rw [hg2]
      by_cases hc : (((st.filter (fun x => globMatchStr pattern x.key)).map
          CacheEntry.key).contains e.key) = true
      · exfalso
        obtain ⟨x, hx, hxe⟩ := List.mem_map.mp (List.elem_iff.mp hc)
        have hgx := (List.mem_filter.mp hx).2
        rw [hxe, hg2] at hgx
        exact Bool.false_ne_true hgx
      · simpa using hc
  have hred : CacheInvalidatePattern false true pattern st
      = (if ((st.filter (fun e => globMatchStr pattern e.key)).map
            CacheEntry.key).length > 0
         then (none, deleteKeys st
            ((st.filter (fun e => globMatchStr pattern e.key)).map
              CacheEntry.key))
         else (none, st)) := rfl
  rw [hred]
  by_cases hlen : ((st.filter (fun e => globMatchStr pattern e.key)).map
      CacheEntry.key).length > 0
  · rw [if_pos hlen]
    refine ⟨rfl, fun e => ?_⟩
    constructor
    · intro hmem
      simp only [deleteKeys] at hmem
      have h1 := List.mem_filter.mp hmem
      refine ⟨h1.1, ?_⟩
      have h2 := h1.2
      rw [hkeys e h1.1] at h2
      simpa using h2
    · intro hmem
      simp only [deleteKeys]
      refine List.mem_filter.mpr ⟨hmem.1, ?_⟩
      rw [hkeys e hmem.1, hmem.2]
      rfl
  · rw [if_neg hlen]
    refine ⟨rfl, fun e => ?_⟩
    have hnil : (st.filter (fun e => globMatchStr pattern e.key)).map
        CacheEntry.key = [] :=
      List.length_eq_zero.mp (by omega)
    have hfil : st.filter (fun e => globMatchStr pattern e.key) = [] :=
      List.map_eq_nil_iff.mp hnil
    constructor
    · intro hmem
      refine ⟨hmem, ?_⟩
      have := List.filter_eq_nil_iff.mp hfil e hmem
      simpa using this
    · exact fun h => h.1

/-- Witness for invalidatePattern_exact: removing the usage:daily prefix
    deletes the matching entry and keeps the other one. -/
theorem invalidatePattern_exact_witness :
    (CacheInvalidatePattern false true "usage:daily:*"
      [⟨"usage:daily:1", "a", 10⟩, ⟨"usage:top:24h", "b", 10⟩]).1 = none
    ∧ ((⟨"usage:top:24h", "b", 10⟩ : CacheEntry) ∈
        (CacheInvalidatePattern false true "usage:daily:*"
          [⟨"usage:daily:1", "a", 10⟩, ⟨"usage:top:24h", "b", 10⟩]).2
      ↔ ((⟨"usage:top:24h", "b", 10⟩ : CacheEntry) ∈
          ([⟨"usage:daily:1", "a", 10⟩, ⟨"usage:top:24h", "b", 10⟩] :
            List CacheEntry)
        ∧ globMatchStr "usage:daily:*" "usage:top:24h" = false)) :=
  ⟨(invalidatePattern_exact "usage:daily:*"
      [⟨"usage:daily:1", "a", 10⟩, ⟨"usage:top:24h", "b", 10⟩]).1,
   (invalidatePattern_exact "usage:daily:*"
      [⟨"usage:daily:1", "a", 10⟩, ⟨"usage:top:24h", "b", 10⟩]).2
     ⟨"usage:top:24h", "b", 10⟩⟩

/-- C5 counterexample: two runs that remove different numbers of keys (two
    and zero) return identical values; the returned value of
    CacheInvalidatePattern carries no count of removed keys, only success
    or an error. -/
theorem invalidatePattern_no_count :
    ((CacheInvalidatePattern false true "usage:daily:*"
        [⟨"usage:daily:1", "a", 10⟩, ⟨"usage:daily:2", "b", 10⟩]).2.length = 0
      ∧ (CacheInvalidatePattern false true "usage:daily:*"
          ([] : List CacheEntry)).2.length = 0)
    ∧ (CacheInvalidatePattern false true "usage:daily:*"
        [⟨"usage:daily:1", "a", 10⟩, ⟨"usage:daily:2", "b", 10⟩]).1
      = (CacheInvalidatePattern false true "usage:daily:*"
          ([] : List CacheEntry)).1 := by
  refine ⟨⟨by decide, by decide⟩, by decide⟩

example :
    (CheckLimit 10 true .noErr "c" "h" 1800 emptyRL).1 = ⟨true, 9, none⟩ := by
  decide

example :
    (CheckLimit 10 true .noErr "c" "h" 1800 emptyRL).2.expiries
      (getRateLimitKey "c" "h") = some 5400 := by
  decide

example :
    (CheckLimit 10 true .noErr "c" "h" 1800
      (checkIter 10 "c" "h" 1800 emptyRL 2)).1 = ⟨true, 7, none⟩ := by
  decide

/-! Prefetch refresher (handler/usage_handler.go, prefetchTopClients): a
    detached task with no return value.  The TTL probe result and the
    recomputation from the log store are environment inputs (Except Unit -);
    the TTL is in seconds, the refresh threshold is 5 minutes = 300 s. -/

/-- Model of UsageHandler.prefetchTopClients.  ttlRes is the result of
    RedisClient.TTL (negative values encode the Redis no-expiry / no-key
    answers), computeRes the result of logStore.GetTopClients, enc the
    json.Marshal outcome for the recomputed value. -/
def prefetchTopClients {α : Type} (avail : Bool) (ttlRes : Except Unit Int)
    (computeRes : Except Unit α) (enc : α → Option String) (cacheKey : String)
    (cacheTTL now : Int) (st : List CacheEntry) : List CacheEntry :=
  if ¬ avail then st
  else
    match ttlRes with
    | .error _ => st
    | .ok ttl =>
        if 0 < ttl ∧ ttl < 300 then
          match computeRes with
          | .error _ => st
          | .ok v => (CacheSet false true (enc v) cacheKey cacheTTL now st).2
        else st

/-- C7: prefetchTopClients returns no error by type (the Go function has no
    return value and discards the CacheSet error); if the recomputation from
    the source fails the cache state is exactly unchanged, as it is when the
    TTL probe fails or the remaining TTL is not strictly between 0 and the
    5-minute threshold; the entry is rewritten only in the refresh window
    with all calls succeeding. -/
theorem prefetch_silent_and_thresholded {α : Type} (avail : Bool)
    (ttlRes : Except Unit Int) (computeRes : Except Unit α)
    (enc : α → Option String) (cacheKey : String) (cacheTTL now : Int)
    (st : List CacheEntry) :
    (∀ e : Unit, computeRes = .error e →
      prefetchTopClients avail ttlRes computeRes enc cacheKey cacheTTL now st = st)
    ∧ (∀ e : Unit, ttlRes = .error e →
      prefetchTopClients avail ttlRes computeRes enc cacheKey cacheTTL now st = st)
    ∧ (∀ ttl : Int, ttlRes = .ok ttl → ¬ (0 < ttl ∧ ttl < 300) →
      prefetchTopClients avail ttlRes computeRes enc cacheKey cacheTTL now st = st)
    ∧ (avail = false →
      prefetchTopClients avail ttlRes computeRes enc cacheKey cacheTTL now st = st)
    ∧ (∀ (ttl : Int) (v : α), avail = true → ttlRes = .ok ttl →
        0 < ttl → ttl < 300 → computeRes = .ok v →
      prefetchTopClients avail ttlRes computeRes enc cacheKey cacheTTL now st
        = (CacheSet false true (enc v) cacheKey cacheTTL now st).2) := by
  refine ⟨?_, ?_, ?_, ?_, ?_⟩
  · intro e he
    subst he
    cases avail <;> simp only [prefetchTopClients] <;> cases ttlRes <;> simp
  · intro e he
    subst he
    cases avail <;> simp [prefetchTopClients]
  · intro ttl ht hrange
    subst ht
    cases avail <;> simp [prefetchTopClients, hrange]
  · intro ha
    subst ha
    simp [prefetchTopClients]
  · intro ttl v ha ht h0 h300 hc
    subst ha; subst ht; subst hc
    simp [prefetchTopClients, h0, h300]

/-- Witness for prefetch_silent_and_thresholded: a failing recomputation at
    a TTL inside the refresh window leaves a one-entry cache unchanged, and
    a succeeding one rewrites the entry. -/
theorem prefetch_silent_witness :
    prefetchTopClients true (.ok 100) (.error ())
      (fun n : Nat => some (toString n)) "usage:top:24h" 3600 0
      [⟨"usage:top:24h", "old", 100⟩]
      = [⟨"usage:top:24h", "old", 100⟩]
    ∧ prefetchTopClients true (.ok 100) (.ok 5)
        (fun n : Nat => some (toString n)) "usage:top:24h" 3600 0
        [⟨"usage:top:24h", "old", 100⟩]
      = (CacheSet false true (some (toString 5)) "usage:top:24h" 3600 0
          [⟨"usage:top:24h", "old", 100⟩]).2 :=
  ⟨(prefetch_silent_and_thresholded true (.ok 100) (.error ())
      (fun n : Nat => some (toString n)) "usage:top:24h" 3600 0
      [⟨"usage:top:24h", "old", 100⟩]).1 () rfl,
   (prefetch_silent_and_thresholded true (.ok 100) (.ok 5)
      (fun n : Nat => some (toString n)) "usage:top:24h" 3600 0
      [⟨"usage:top:24h", "old", 100⟩]).2.2.2.2 100 5 rfl rfl
      (by decide) (by decide) rfl⟩

/-! Live broadcast session (SSEHandler.StreamUsageUpdates): the select loop
    over cancellation, inbound pub/sub messages and the 30 s heartbeat
    ticker is embedded as a function over the trace of events the loop
    observes, in observation order.  dec models json.Unmarshal of a message
    payload, sendOk models whether writing a frame to the client transport
    succeeds.  Each frame is one SSE event block. -/

inductive SessionEvent where
  | cancel
  | busMsg (payload : String)
  | tick (t : Int)

inductive Frame (δ : Type) where
  | connected (clientID : String) (t : Int)
  | update (data : δ)
  | heartbeat (t : Int)
deriving DecidableEq

/-- Output of the streaming loop: frames delivered to the client, payloads
    dropped (and logged) as malformed, and the error the handler returns
    (none on graceful termination). -/
structure LoopOut (δ : Type) where
  frames : List (Frame δ)
  dropped : List String
  err : Option Unit
deriving DecidableEq

/-- Model of the for/select loop of StreamUsageUpdates: cancellation stops
    the loop with no error; a bus message that fails to decode is dropped
    and logged and the loop continues; a decoded message is sent as an
    update frame; a ticker tick sends a heartbeat frame; a failed send
    terminates the session with the write error. -/
def streamLoop {δ : Type} (dec : String → Option δ) (sendOk : Frame δ → Bool) :
    List SessionEvent → LoopOut δ
  | [] => ⟨[], [], none⟩
  | .cancel :: _ => ⟨[], [], none⟩
  | .busMsg p :: rest =>
      match dec p with
      | none =>
          let r := streamLoop dec sendOk rest
          ⟨r.frames, p :: r.dropped, r.err⟩
      | some d =>
          if sendOk (.update d) then
            let r := streamLoop dec sendOk rest
            ⟨.update d :: r.frames, r.dropped, r.err⟩
          else ⟨[], [], some ()⟩
  | .tick t :: rest =>
      if sendOk (.heartbeat t) then
        let r := streamLoop dec sendOk rest
        ⟨.heartbeat t :: r.frames, r.dropped, r.err⟩
      else ⟨[], [], some ()⟩

/-- Model of SSEHandler.StreamUsageUpdates: 503 when Redis is unavailable;
    otherwise the connected frame (client identifier and timestamp) is sent
    first, then the loop runs over the observed events. -/
def StreamUsageUpdates {δ : Type} (avail : Bool) (clientID : String)
    (now : Int) (dec : String → Option δ) (sendOk : Frame δ → Bool)
    (events : List SessionEvent) : Except Unit (LoopOut δ) :=
  if ¬ avail then .error ()
  else if sendOk (.connected clientID now) then
    let r := streamLoop dec sendOk events
    .ok ⟨.connected clientID now :: r.frames, r.dropped, r.err⟩
  else .error ()

/-- C8: with the store available and a transport accepting writes, the
    session opens with the connected frame - carrying the session client
    identifier and a timestamp - as the first frame; when the first observed
    event is a heartbeat tick (the 30 s ticker fires within one interval
    when no bus message arrives), the next frame is a heartbeat; events
    observed after a cancellation contribute no frames, and a loop entered
    at a cancellation terminates with no frames and no error. -/
theorem sse_session_lifecycle {δ : Type} (clientID : String) (now : Int)
    (dec : String → Option δ) (sendOk : Frame δ → Bool)
    (hsend : ∀ f, sendOk f = true) :
    (∀ events, StreamUsageUpdates true clientID now dec sendOk events
        = .ok ⟨.connected clientID now :: (streamLoop dec sendOk events).frames,
               (streamLoop dec sendOk events).dropped,
               (streamLoop dec sendOk events).err⟩)
    ∧ (∀ (t : Int) (rest : List SessionEvent),
        (streamLoop dec sendOk (.tick t :: rest)).frames
          = .heartbeat t :: (streamLoop dec sendOk rest).frames)
    ∧ (∀ pre post, streamLoop dec sendOk (pre ++ SessionEvent.cancel :: post)
        = streamLoop dec sendOk (pre ++ [SessionEvent.cancel]))
    ∧ (∀ post, streamLoop dec sendOk (SessionEvent.cancel :: post)
        = ⟨[], [], none⟩) := by
  refine ⟨?_, ?_, ?_, ?_⟩
  · intro events
    simp [StreamUsageUpdates, hsend]
  · intro t rest
    simp [streamLoop, hsend]
  · intro pre post
    induction pre with
    | nil => simp [streamLoop]
    | cons e pre ih =>
        cases e with
        | cancel => simp [streamLoop]
        | busMsg p =>
            cases hd : dec p <;> simp [streamLoop, hd, hsend, ih]
        | tick t => simp [streamLoop, hsend, ih]
  · intro post
    simp [streamLoop]

/-- Decoder used as a concrete json.Unmarshal instance in the stream
    witnesses: the payload "good" decodes, everything else is malformed. -/
def decGood : String → Option Nat :=
  fun s => if s == "good" then some 7 else none

/-- Witness for sse_session_lifecycle: a session observing a tick and then a
    cancellation delivers exactly the connected frame and one heartbeat,
    with no error; the bus message after the cancellation is not seen. -/
theorem sse_session_lifecycle_witness :
    StreamUsageUpdates true "client-1" 42 decGood (fun _ => true)
        [SessionEvent.tick 72, SessionEvent.cancel, SessionEvent.busMsg "good"]
      = .ok ⟨[.connected "client-1" 42, .heartbeat 72], [], none⟩ := by
  rw [(sse_session_lifecycle "client-1" 42 decGood (fun _ => true)
        (fun _ => rfl)).1
      [SessionEvent.tick 72, SessionEvent.cancel, SessionEvent.busMsg "good"]]
  rfl

/-- C9: a malformed (non-decodable) payload is dropped and recorded in the
    log of parse failures while the session keeps streaming: the next
    well-formed message is delivered as the next update frame, and the rest
    of the trace is processed as if the malformed message had not occurred. -/
theorem sse_malformed_dropped {δ : Type} (dec : String → Option δ)
    (sendOk : Frame δ → Bool) (bad good : String) (d : δ)
    (rest : List SessionEvent)
    (hbad : dec bad = none) (hgood : dec good = some d)
    (hsend : ∀ f, sendOk f = true) :
    streamLoop dec sendOk (.busMsg bad :: .busMsg good :: rest)
      = ⟨.update d :: (streamLoop dec sendOk rest).frames,
         bad :: (streamLoop dec sendOk rest).dropped,
         (streamLoop dec sendOk rest).err⟩ := by
  simp [streamLoop, hbad, hgood, hsend]

/-- Witness for sse_malformed_dropped: the malformed payload is logged and
    produces no frame, the following well-formed payload is delivered. -/
theorem sse_malformed_dropped_witness :
    streamLoop decGood (fun _ => true)
        [SessionEvent.busMsg "not json", SessionEvent.busMsg "good"]
      = ⟨[Frame.update 7], ["not json"], none⟩ := by
  rw [sse_malformed_dropped decGood (fun _ => true) "not json" "good" 7 []
    (by decide) (by decide) (fun _ => rfl)]
  rfl

end Nexmedis
